import Mathlib

/-!
# Verification of the `cim` editing engine

A shallow embedding of the `cim` terminal editor's core (`src/editor.rs`,
`src/buffer.rs`, `src/input.rs`) and proofs about it.

Modelling conventions:
* The document is a `List Char`; all offsets are character offsets.  The Rust
  code indexes the rope by byte offsets but always converts a character index
  to the byte offset of that character's start (`char_indices().nth`,
  `len_utf8`), so on the character level the two views coincide at every
  boundary the code touches.
* `u16` cursor coordinates are `Nat`s kept below 65536 by the operations
  themselves; a Rust `as u16` cast is an explicit `% 65536`, a `u16`
  wrapping subtraction of release builds is written out with `% 65536`, and
  `saturating_*` operations are `Nat` truncated subtraction / `min _ 65535`.
* xi-rope semantics: `Rope::measure::<LinesMetric>()` counts `'\n'`
  characters; `offset_of_line n` is the offset just after the n-th newline,
  with `offset_of_line (measure+1) = len` as the sentinel end.
* A Rust panic (out-of-range rope slice) is modelled by returning `none`
  where a modelled operation can actually reach it (`move_cursor` on an
  empty buffer); operations whose panics are unreachable from the states any
  theorem below quantifies over are modelled total, with a comment.
* File I/O is external: `CimEditor::save` takes a `writeOk : Bool` oracle
  standing for the result of `RopeTextBuffer::save_to_file`.
-/

/-- Number of `'\n'` characters: xi-rope `Rope::measure::<LinesMetric>()`. -/
def countNewlines (d : List Char) : Nat :=
  d.countP (fun c => c == '\n')

/-- xi-rope `Rope::offset_of_line`: character offset where line `n` starts,
i.e. the offset just after the `n`-th newline; for `n = measure + 1`
(the sentinel) this is the buffer length.  (For `n > measure + 1` xi-rope
panics; this model returns the length, and no theorem below uses that
range.) -/
def offsetOfLine : List Char → Nat → Nat
  | _, 0 => 0
  | [], _ + 1 => 0
  | c :: rest, n + 1 =>
      1 + (if c = '\n' then offsetOfLine rest n else offsetOfLine rest (n + 1))

/-- xi-rope `rope.slice(a..b).to_string()` as a character list (valid for
`a ≤ b ≤ len`, the only range the modelled call sites reach with a defined
result). -/
def ropeSlice (d : List Char) (a b : Nat) : List Char :=
  (d.take b).drop a

/-- xi-rope `rope.edit(a..b, s)`: replace the range `[a, b)` by `s`. -/
def ropeEdit (d : List Char) (a b : Nat) (s : List Char) : List Char :=
  d.take a ++ s ++ d.drop b

/-- Rust `str::trim_end_matches(&['\r', '\n'][..])`: strip every trailing
carriage return / line feed. -/
def trimEndCRLF (cs : List Char) : List Char :=
  (cs.reverse.dropWhile (fun c => c == '\r' || c == '\n')).reverse

/-- `u16::saturating_add_signed` with an `i16` delta (deltas are modelled as
unbounded `Int`s; saturation clamps the result into `[0, 65535]` exactly as
for any in-range `i16`). -/
def u16SatAddSigned (a : Nat) (d : Int) : Nat :=
  if 0 ≤ d then min (a + d.toNat) 65535 else a - (-d).toNat

/-- `src/buffer.rs`: the text buffer, an editable rope plus a dirty flag. -/
structure RopeTextBuffer where
  rope : List Char
  modified : Bool
deriving DecidableEq, Repr

/-- `RopeTextBuffer::insert_char`: splice one character at `pos`, set
`modified`. -/
def RopeTextBuffer.insertChar (b : RopeTextBuffer) (pos : Nat) (c : Char) :
    RopeTextBuffer :=
  { rope := ropeEdit b.rope pos pos [c], modified := true }

/-- `RopeTextBuffer::remove_char`: remove the character at `pos` when
`pos < len`, otherwise do nothing at all. -/
def RopeTextBuffer.removeChar (b : RopeTextBuffer) (pos : Nat) :
    RopeTextBuffer :=
  if pos < b.rope.length then
    { rope := ropeEdit b.rope pos (pos + 1) [], modified := true }
  else b

/-- `src/editor.rs` `EditorMode`. -/
inductive EditorMode where
  | normal
  | insert
  | command
deriving DecidableEq, Repr

/-- `src/editor.rs` `EditorAction`. -/
inductive EditorAction where
  | exit
  | save
  | saveExit
  | changeMode (b : Bool)
  | moveCursor (d : Int × Int)
  | moveWord (d : Int)
  | lineStart
  | lineEnd
  | pageUp
  | pageDown
  | startCommand
  | insertChar (c : Char)
  | deleteChar
  | backspace
  | tab
deriving DecidableEq, Repr

/-- crossterm `KeyCode`, restricted to the codes the dispatch tables name
(`other` stands for every remaining code, all of which fall through to the
wildcard arms). -/
inductive KeyCode where
  | char (c : Char)
  | esc
  | backspace
  | tab
  | enter
  | up
  | down
  | left
  | right
  | home
  | endKey
  | pageUp
  | pageDown
  | delete
  | other
deriving DecidableEq, Repr

/-- crossterm `KeyModifiers`, restricted to the values the dispatch tables
match on (`other` stands for any other modifier combination). -/
inductive KeyModifiers where
  | none
  | shift
  | control
  | other
deriving DecidableEq, Repr

/-- crossterm `KeyEvent` (the `kind`/`state` fields are matched with `..`
everywhere, so they are omitted). -/
structure KeyEvent where
  code : KeyCode
  modifiers : KeyModifiers
deriving DecidableEq, Repr

/-- `src/editor.rs` `CimEditor`.  The purely presentational fields
(`highlighter`, `line_numbers`, `highlighted_lines`, `last_key_event`) are
not part of the editing engine and are omitted; `file_path` keeps only what
the engine reads (its presence and identity). -/
structure CimEditor where
  buffer : RopeTextBuffer
  filePath : Option String
  mode : EditorMode
  commandBuffer : List Char
  cursorX : Nat
  cursorY : Nat
  scrollOffset : Nat
  horizontalOffset : Nat
  viewportHeight : Nat
  viewportWidth : Nat
  textChanged : Bool
deriving DecidableEq, Repr

/-- The vertical half of `CimEditor::update_viewport`, as a pure function of
cursor line `y`, current `scroll_offset` `so`, `viewport_height` `vh` and
the line measure `lines`.  The two `% 65536` are the source's `as u16`
casts on the guard comparands; `Nat` subtraction is the source's
`saturating_sub`. -/
def vOffset (y so vh lines : Nat) : Nat :=
  min
    (if y < (so + min 2 (vh / 4)) % 65536 then y - min 2 (vh / 4)
     else if (so + vh - min 2 (vh / 4)) % 65536 ≤ y then y + min 2 (vh / 4) - vh
     else so)
    (lines - vh)

/-- The horizontal half of `CimEditor::update_viewport` (note: unlike the
vertical half, the source applies no final clamp here). -/
def hOffset (x ho vw : Nat) : Nat :=
  if x < (ho + min 5 (vw / 4)) % 65536 then x - min 5 (vw / 4)
  else if (ho + vw - min 5 (vw / 4)) % 65536 ≤ x then x + min 5 (vw / 4) - vw
  else ho

/-- `CimEditor::update_viewport`. -/
def updateViewport (e : CimEditor) : CimEditor :=
  { e with
    scrollOffset :=
      vOffset e.cursorY e.scrollOffset e.viewportHeight
        (countNewlines e.buffer.rope),
    horizontalOffset := hOffset e.cursorX e.horizontalOffset e.viewportWidth }

/-- The cursor pair computed by `CimEditor::normalize_cursor`.
`(lc % 65536 + 65535) % 65536` is the release-build value of
`line_count as u16 - 1` (wrapping when the cast is 0), and likewise for
`line_length as u16 - 1`. -/
def normCursorPos (e : CimEditor) : Nat × Nat :=
  let lineCount := countNewlines e.buffer.rope
  let newY :=
    if lineCount = 0 then 0
    else min e.cursorY ((lineCount % 65536 + 65535) % 65536)
  let newX :=
    if newY ≠ e.cursorY then 0
    else if 0 < lineCount then
      let lineLength :=
        (trimEndCRLF (ropeSlice e.buffer.rope (offsetOfLine e.buffer.rope newY)
          (offsetOfLine e.buffer.rope (newY + 1)))).length
      if e.mode = EditorMode.normal ∧ 0 < lineLength then
        min e.cursorX ((lineLength % 65536 + 65535) % 65536)
      else min e.cursorX (lineLength % 65536)
    else 0
  (newX, newY)

/-- `CimEditor::normalize_cursor`: clamp the cursor, then recompute the
viewport. -/
def normalizeCursor (e : CimEditor) : CimEditor :=
  updateViewport
    { e with cursorX := (normCursorPos e).1, cursorY := (normCursorPos e).2 }

/-- `CimEditor::update_after_edit`. -/
def updateAfterEdit (e : CimEditor) : CimEditor :=
  updateViewport (normalizeCursor { e with textChanged := true })

/-- `CimEditor::total_lines`. -/
def totalLines (e : CimEditor) : Nat :=
  countNewlines e.buffer.rope

/-- `CimEditor::current_line_length`. -/
def currentLineLength (e : CimEditor) : Nat :=
  if e.buffer.rope.isEmpty then 0
  else if countNewlines e.buffer.rope ≤ e.cursorY then 0
  else
    (trimEndCRLF (ropeSlice e.buffer.rope
      (offsetOfLine e.buffer.rope e.cursorY)
      (offsetOfLine e.buffer.rope (e.cursorY + 1)))).length

/-- `CimEditor::move_cursor`.  The source also computes `is_last_line` and
`line_char_len` (editor.rs:230-237) but never uses them; `max_x` comes from
the full slice `line_start..next_line_start`, newline included.  On an empty
buffer `next_line_start = 0` and the (dead) slice
`line_start..next_line_start - 1` underflows past the buffer, which makes
xi-rope panic: modelled as `none`. -/
def moveCursor (e : CimEditor) (direction : Int × Int) : Option CimEditor :=
  let total_lines := countNewlines e.buffer.rope
  let maxY := (total_lines - 1) % 65536
  let y := min (u16SatAddSigned e.cursorY direction.2) maxY
  let lineStart := offsetOfLine e.buffer.rope y
  let nextLineStart := offsetOfLine e.buffer.rope (y + 1)
  if nextLineStart = 0 then none
  else
    let line := ropeSlice e.buffer.rope lineStart nextLineStart
    let maxX := (line.length - 1) % 65536
    let x := min (u16SatAddSigned e.cursorX direction.1) maxX
    some (updateViewport { e with cursorX := x, cursorY := y })

/-- `c.is_alphanumeric() || c == '_'`, the word-character test of
`move_cursor_word` (`Char.isAlphanum` models Rust's `is_alphanumeric`; they
agree on every ASCII character, which covers the claims' inputs). -/
def isWordChar (c : Char) : Bool :=
  c.isAlphanum || c == '_'

/-- `chars.get(i)` tested against a predicate, false out of bounds. -/
def isWordCharAt (cs : List Char) (i : Nat) : Bool :=
  match cs[i]? with
  | some c => isWordChar c
  | none => false

/-- The `while new_x < chars.len() && p(chars[new_x])` loops of
`move_cursor_word`, fuel-indexed so that it computes by `rfl`/`decide`.
The fuel `cs.length - i` supplied by `skipWhileP` is exactly the maximal
number of iterations the Rust loop can make from index `i`, so the loop
guard — not the fuel — always decides termination. -/
def skipWhileAux (p : Char → Bool) (cs : List Char) : Nat → Nat → Nat
  | 0, i => i
  | fuel + 1, i =>
      if i < cs.length ∧ p (cs.getD i ' ') = true then
        skipWhileAux p cs fuel (i + 1)
      else i

/-- First index `j ≥ i` with `j ≥ cs.length` or `¬ p cs[j]`. -/
def skipWhileP (p : Char → Bool) (cs : List Char) (i : Nat) : Nat :=
  skipWhileAux p cs (cs.length - i) i

/-- The forward (`direction > 0`) index computation of
`CimEditor::move_cursor_word`: if the cursor sits on a word character, skip
to the end of the current word, then skip non-word characters. -/
def forwardWordIndex (cs : List Char) (x : Nat) : Nat :=
  skipWhileP (fun c => ! isWordChar c) cs
    (if isWordCharAt cs x then skipWhileP isWordChar cs x else x)

/-- Backward loop 1: `while new_x > 0 && !word(chars[new_x]) { new_x -= 1 }`. -/
def backSkipNonWord (cs : List Char) : Nat → Nat
  | 0 => 0
  | i + 1 => if ! isWordCharAt cs (i + 1) then backSkipNonWord cs i else i + 1

/-- Backward loop 2: `while new_x > 0 && word(chars[new_x - 1]) { new_x -= 1 }`. -/
def backSkipWord (cs : List Char) : Nat → Nat
  | 0 => 0
  | i + 1 => if isWordCharAt cs i then backSkipWord cs i else i + 1

/-- The backward (`direction < 0`) index computation of
`CimEditor::move_cursor_word`, starting from `x - 1` (the caller checks
`x ≠ 0` first). -/
def backwardWordIndex (cs : List Char) (x : Nat) : Nat :=
  backSkipWord cs (backSkipNonWord cs (x - 1))

/-- `CimEditor::move_cursor_word`. -/
def moveCursorWord (e : CimEditor) (direction : Int) : CimEditor :=
  if direction = 0 then e
  else
    let lineCount := countNewlines e.buffer.rope
    if lineCount = 0 then e
    else if lineCount ≤ e.cursorY then e
    else
      let lineStart := offsetOfLine e.buffer.rope e.cursorY
      let lineEnd := offsetOfLine e.buffer.rope (e.cursorY + 1)
      let line := trimEndCRLF (ropeSlice e.buffer.rope lineStart lineEnd)
      if line.isEmpty then e
      else if line.length ≤ e.cursorX then e
      else if 0 < direction then
        updateViewport { e with cursorX := forwardWordIndex line e.cursorX % 65536 }
      else if e.cursorX = 0 then e
      else
        updateViewport { e with cursorX := backwardWordIndex line e.cursorX % 65536 }

/-- `CimEditor::insert_char`.  For `'\n'` the source splices via
`rope_mut().edit` and sets `modified` itself; otherwise it goes through
`RopeTextBuffer::insert_char`.  `char_indices().nth(x)` resolves the `x`-th
character's start, i.e. offset `x` in the character model, and
`line.len()` past the end.  (`y + 1` and `x + 1` are `u16` additions of a
release build, hence `% 65536`.) -/
def CimEditor.insertChar (e : CimEditor) (c : Char) : CimEditor :=
  let x := e.cursorX
  let y := e.cursorY
  let lineStart := offsetOfLine e.buffer.rope y
  let lineEnd := offsetOfLine e.buffer.rope (y + 1)
  let line := ropeSlice e.buffer.rope lineStart lineEnd
  let bytePos := if line.length ≤ x then line.length else x
  let insertPos := lineStart + bytePos
  if c = '\n' then
    updateAfterEdit
      { e with
        buffer := { rope := ropeEdit e.buffer.rope insertPos insertPos ['\n'],
                    modified := true },
        cursorX := 0, cursorY := (y + 1) % 65536 }
  else
    updateAfterEdit
      { e with
        buffer := e.buffer.insertChar insertPos c,
        cursorX := (x + 1) % 65536 }

/-- `CimEditor::delete_char` (backspace).  At `(0, 0)` neither branch
applies and the state is untouched.  (The `y > 0` branch's
`current_line_start - 1` is in range whenever the cursor line is, which
holds in every state a theorem below touches.) -/
def deleteChar (e : CimEditor) : CimEditor :=
  let x := e.cursorX
  let y := e.cursorY
  if 0 < x then
    let lineStart := offsetOfLine e.buffer.rope y
    let line := ropeSlice e.buffer.rope lineStart (offsetOfLine e.buffer.rope (y + 1))
    let bytePos := if x - 1 < line.length then x - 1 else 0
    let deletePos := lineStart + bytePos
    updateAfterEdit
      { e with
        buffer := { rope := ropeEdit e.buffer.rope deletePos (deletePos + 1) [],
                    modified := true },
        cursorX := x - 1 }
  else if 0 < y then
    let currentLineStart := offsetOfLine e.buffer.rope y
    let prevLineStart := offsetOfLine e.buffer.rope (y - 1)
    let prevLineEnd := currentLineStart - 1
    let prevLine := ropeSlice e.buffer.rope prevLineStart prevLineEnd
    updateAfterEdit
      { e with
        buffer := { rope := ropeEdit e.buffer.rope prevLineEnd currentLineStart [],
                    modified := true },
        cursorX := prevLine.length % 65536, cursorY := y - 1 }
  else e

/-- `CimEditor::insert_tab`: four `insert_char(' ')` calls. -/
def insertTab (e : CimEditor) : CimEditor :=
  ((((e.insertChar ' ').insertChar ' ').insertChar ' ').insertChar ' ')

/-- `CimEditor::change_mode`. -/
def changeMode (e : CimEditor) (insertMode : Bool) : CimEditor :=
  { e with mode := if insertMode then EditorMode.insert else EditorMode.normal }

/-- `CimEditor::save`, with `writeOk` standing for the outcome of the
external `save_to_file`; the second component is `false` exactly when the
`?` propagated an I/O error.  Note it clears `text_changed`, never
`buffer.modified`. -/
def save (e : CimEditor) (writeOk : Bool) : CimEditor × Bool :=
  match e.filePath with
  | some _ =>
      if writeOk then ({ e with textChanged := false }, true) else (e, false)
  | none => (e, true)

/-- `CimEditor::page_up`. -/
def pageUp (e : CimEditor) : CimEditor :=
  let scrollAmount := min e.viewportHeight e.cursorY
  normalizeCursor
    { e with
      cursorY := e.cursorY - scrollAmount,
      scrollOffset :=
        if scrollAmount < e.scrollOffset then e.scrollOffset - scrollAmount
        else 0 }

/-- `CimEditor::page_down` (`y + vh as u16` is a wrapping `u16` addition in
a release build, and `new_y - y` a wrapping `u16` subtraction). -/
def pageDown (e : CimEditor) : CimEditor :=
  let maxLine := (countNewlines e.buffer.rope - 1) % 65536
  let newY := min ((e.cursorY + e.viewportHeight % 65536) % 65536) maxLine
  let movedAmount := (65536 + newY - e.cursorY) % 65536
  normalizeCursor
    { e with cursorY := newY, scrollOffset := e.scrollOffset + movedAmount }

/-- `CimEditor::go_to_line_start`. -/
def goToLineStart (e : CimEditor) : CimEditor :=
  updateViewport { e with cursorX := 0 }

/-- `CimEditor::go_to_line_end`. -/
def goToLineEnd (e : CimEditor) : CimEditor :=
  let lineStart := offsetOfLine e.buffer.rope e.cursorY
  let nextLineStart := offsetOfLine e.buffer.rope (e.cursorY + 1)
  let lineLen :=
    (trimEndCRLF (ropeSlice e.buffer.rope lineStart nextLineStart)).length % 65536
  updateViewport
    { e with
      cursorX := if e.mode = EditorMode.insert then lineLen else lineLen - 1 }

/-- `src/input.rs` `handle_key_event`: the Normal/Command-mode dispatch
table, arms in source order. -/
def handleKeyEvent (key : KeyEvent) : Option EditorAction :=
  match key.code, key.modifiers with
  | KeyCode.char 'c', KeyModifiers.control => some EditorAction.exit
  | KeyCode.char 'q', KeyModifiers.none => some EditorAction.exit
  | KeyCode.char 'w', KeyModifiers.none => some EditorAction.save
  | KeyCode.char 'i', KeyModifiers.none => some (EditorAction.changeMode true)
  | KeyCode.esc, KeyModifiers.none => some (EditorAction.changeMode false)
  | KeyCode.char ':', KeyModifiers.none => some EditorAction.startCommand
  | KeyCode.up, KeyModifiers.none => some (EditorAction.moveCursor (0, -1))
  | KeyCode.char 'k', KeyModifiers.none => some (EditorAction.moveCursor (0, -1))
  | KeyCode.down, KeyModifiers.none => some (EditorAction.moveCursor (0, 1))
  | KeyCode.char 'j', KeyModifiers.none => some (EditorAction.moveCursor (0, 1))
  | KeyCode.left, KeyModifiers.none => some (EditorAction.moveCursor (-1, 0))
  | KeyCode.char 'h', KeyModifiers.none => some (EditorAction.moveCursor (-1, 0))
  | KeyCode.right, KeyModifiers.none => some (EditorAction.moveCursor (1, 0))
  | KeyCode.char 'l', KeyModifiers.none => some (EditorAction.moveCursor (1, 0))
  | KeyCode.char 'w', KeyModifiers.control => some (EditorAction.moveWord 1)
  | KeyCode.char 'b', KeyModifiers.control => some (EditorAction.moveWord (-1))
  | KeyCode.home, KeyModifiers.none => some EditorAction.lineStart
  | KeyCode.char '0', KeyModifiers.none => some EditorAction.lineStart
  | KeyCode.endKey, KeyModifiers.none => some EditorAction.lineEnd
  | KeyCode.char '$', KeyModifiers.none => some EditorAction.lineEnd
  | KeyCode.pageUp, KeyModifiers.none => some EditorAction.pageUp
  | KeyCode.pageDown, KeyModifiers.none => some EditorAction.pageDown
  | KeyCode.char c, KeyModifiers.none => some (EditorAction.insertChar c)
  | KeyCode.char c, KeyModifiers.shift => some (EditorAction.insertChar c)
  | KeyCode.tab, KeyModifiers.none => some EditorAction.tab
  | KeyCode.enter, KeyModifiers.none => some (EditorAction.insertChar '\n')
  | KeyCode.backspace, KeyModifiers.none => some EditorAction.deleteChar
  | _, _ => none

/-- `CimEditor::handle_action`.  `none` is a propagated panic (only
`move_cursor` can panic); the inner `Option EditorAction` is the follow-up
action returned to the host.  `Save`/`SaveExit` return no action both on
success and on the `?`-propagated failure (`self.save().ok()?`). -/
def handleAction (e : CimEditor) (writeOk : Bool) (action : EditorAction) :
    Option (CimEditor × Option EditorAction) :=
  match action with
  | EditorAction.changeMode b => some (changeMode e b, some action)
  | EditorAction.moveCursor dir => (moveCursor e dir).map (fun s => (s, none))
  | EditorAction.moveWord dir => some (moveCursorWord e dir, none)
  | EditorAction.lineStart => some (goToLineStart e, none)
  | EditorAction.lineEnd => some (goToLineEnd e, none)
  | EditorAction.pageUp => some (pageUp e, none)
  | EditorAction.pageDown => some (pageDown e, none)
  | EditorAction.insertChar c =>
      some (if e.mode = EditorMode.insert then e.insertChar c else e, none)
  | EditorAction.deleteChar => some (deleteChar e, none)
  | EditorAction.save => some ((save e writeOk).1, none)
  | EditorAction.saveExit =>
      let r := save e writeOk
      some (r.1, if r.2 then some EditorAction.exit else none)
  | EditorAction.startCommand =>
      some ({ e with mode := EditorMode.command, commandBuffer := [] }, some action)
  | _ => some (e, some action)

/-- `CimEditor::handle_input`: Normal/Command mode goes through the
dispatch table; Insert mode has its own disjoint arms (source order), with
every unlisted key — Enter among them — falling through to `_ => None`
without touching the state. -/
def handleInput (e : CimEditor) (key : KeyEvent) (writeOk : Bool) :
    Option (CimEditor × Option EditorAction) :=
  match e.mode with
  | EditorMode.normal | EditorMode.command =>
      match handleKeyEvent key with
      | some action => handleAction e writeOk action
      | none => some (e, none)
  | EditorMode.insert =>
      match key.code, key.modifiers with
      | KeyCode.esc, _ =>
          some ({ e with mode := EditorMode.normal },
            some (EditorAction.changeMode false))
      | KeyCode.backspace, _ =>
          some (deleteChar e, some EditorAction.backspace)
      | KeyCode.char c, KeyModifiers.none =>
          some (e.insertChar c, some (EditorAction.insertChar c))
      | KeyCode.char c, KeyModifiers.shift =>
          some (e.insertChar c, some (EditorAction.insertChar c))
      | KeyCode.tab, KeyModifiers.none =>
          some (insertTab e, some EditorAction.tab)
      | KeyCode.up, KeyModifiers.none =>
          (moveCursor e (0, -1)).map
            (fun s => (s, some (EditorAction.moveCursor (0, -1))))
      | KeyCode.down, KeyModifiers.none =>
          (moveCursor e (0, 1)).map
            (fun s => (s, some (EditorAction.moveCursor (0, 1))))
      | KeyCode.left, KeyModifiers.none =>
          (moveCursor e (-1, 0)).map
            (fun s => (s, some (EditorAction.moveCursor (-1, 0))))
      | KeyCode.right, KeyModifiers.none =>
          (moveCursor e (1, 0)).map
            (fun s => (s, some (EditorAction.moveCursor (1, 0))))
      | _, _ => some (e, none)

/-- `CimEditor::new` after loading `content` (presentation fields omitted,
see `CimEditor`). -/
def initEditor (content : List Char) (path : Option String) : CimEditor :=
  { buffer := { rope := content, modified := false },
    filePath := path,
    mode := EditorMode.normal,
    commandBuffer := [],
    cursorX := 0, cursorY := 0,
    scrollOffset := 0, horizontalOffset := 0,
    viewportHeight := 0, viewportWidth := 0,
    textChanged := true }

/-- Modelled from the spec's words (§4.3, claim C4): the vertical scroll
recomputation — margin test, `max(0, ·)` (written as `Nat` subtraction), and
the final clamp `scroll_offset ≤ max(0, line_count − viewport_height)`. -/
def specScrollOffset (y so vh lines : Nat) : Nat :=
  let margin := min 2 (vh / 4)
  min
    (if y < so + margin then y - margin
     else if so + vh - margin ≤ y then y + margin - vh
     else so)
    (lines - vh)

/-- Modelled from the spec's words: the horizontal analogue of the scroll
recomputation with `h_margin = min(5, viewport_width/4)`, without any final
clamp (the amended form of claim C4's horizontal algorithm). -/
def specHorizontalOffsetNoClamp (x ho vw : Nat) : Nat :=
  let hMargin := min 5 (vw / 4)
  if x < ho + hMargin then x - hMargin
  else if ho + vw - hMargin ≤ x then x + hMargin - vw
  else ho

/-- Modelled from claim C4's words: the horizontal algorithm *including* the
final clamp, with the cursor line's length playing `line_count`'s role. -/
def specHorizontalOffsetClamped (x ho vw lineLen : Nat) : Nat :=
  min (specHorizontalOffsetNoClamp x ho vw) (lineLen - vw)

/-- A buffer of `n` newlines has line measure `n`. -/
theorem countNewlines_replicate (n : Nat) :
    countNewlines (List.replicate n '\n') = n := by
  induction n with
  | zero => rfl
  | succ n ih => simp [countNewlines, List.replicate_succ, List.countP_cons] at ih ⊢; omega

/-- C1: refuted by evaluation.  From the freshly opened buffer `"a\nb"`
(Normal mode, cursor `(0,0)`) the single operation `move_cursor((1,0))` is a
reachable step, and it leaves the cursor at column 1 of the line `"a"` whose
length is 1 — in Normal mode the claimed invariant requires
`column ≤ line_length - 1 = 0`.  (`move_cursor` derives `max_x` from the
line slice including its trailing newline, so the cursor may rest on the
newline cell.) -/
theorem spec_c1_code_divergence :
    (moveCursor (initEditor "a\nb".toList none) (1, 0)).map
        (fun s => (s.mode, s.cursorX, s.cursorY, currentLineLength s)) =
      some (EditorMode.normal, 1, 0, 1) := by
  decide

/-- C2: refuted by evaluation.  On `"a\nb"`, an overshooting
`move_cursor((5,0))` stops at column 1 of the non-last line `"a"` — the
claim's `max_x` (length minus one) is 0.  On the unterminated last line
`"ab"` it stops at column 1 — the claim's `max_x` (full length) is 2.  And
on an empty buffer `move_cursor` panics (out-of-range rope slice) instead of
clamping. -/
theorem spec_c2_code_divergence :
    (moveCursor (initEditor "a\nb".toList none) (5, 0)).map (fun s => s.cursorX) =
        some 1 ∧
    (moveCursor (initEditor "ab".toList none) (5, 0)).map (fun s => s.cursorX) =
        some 1 ∧
    moveCursor (initEditor "".toList none) (1, 0) = none := by
  decide

/-- C3: refuted by evaluation.  `total_lines` is the xi-rope newline count:
`"abc\ndef"` reports 1 line (the claim says the trailing unterminated line
makes it 2) and the empty buffer reports 0 (the claim says at least 1). -/
theorem spec_c3_code_divergence :
    totalLines (initEditor "abc\ndef".toList none) = 1 ∧
    totalLines (initEditor "".toList none) = 0 := by
  decide

/-- C10: refuted by evaluation.  In Insert mode on the empty buffer (a valid
cursor at `(0,0)`), `insert_tab` does insert four spaces at the cursor's
position and sets `modified`, but the cursor column ends at 0, not 4:
`normalize_cursor` forces the cursor to `(0,0)` after every one of the four
inserts because the buffer contains no newline (`line_count = 0`). -/
theorem spec_c10_code_divergence :
    (insertTab { initEditor [] none with mode := EditorMode.insert }).buffer.rope =
        "    ".toList ∧
    (insertTab { initEditor [] none with mode := EditorMode.insert }).cursorX = 0 ∧
    (insertTab { initEditor [] none with mode := EditorMode.insert }).buffer.modified =
        true := by
  decide

/-- C8: boundary edits are silent no-ops.  `remove_char(pos)` with
`pos ≥ length` returns the buffer — `modified` flag included — unchanged;
with `pos < length` it removes exactly the character at `pos` and sets
`modified`; and `delete_char` at cursor `(0,0)` returns the editor state
unchanged. -/
theorem spec_c8 :
    (∀ (b : RopeTextBuffer) (pos : Nat), b.rope.length ≤ pos →
      b.removeChar pos = b) ∧
    (∀ (b : RopeTextBuffer) (pos : Nat), pos < b.rope.length →
      (b.removeChar pos).rope = ropeEdit b.rope pos (pos + 1) [] ∧
      (b.removeChar pos).modified = true) ∧
    (∀ e : CimEditor, e.cursorX = 0 → e.cursorY = 0 → deleteChar e = e) := by
  refine ⟨?_, ?_, ?_⟩
  · intro b pos h
    simp [RopeTextBuffer.removeChar, Nat.not_lt.mpr h]
  · intro b pos h
    simp [RopeTextBuffer.removeChar, h]
  · intro e hx hy
    simp [deleteChar, hx, hy]

/-- C8 witness: the three parts of `spec_c8` at concrete inputs. -/
theorem spec_c8_witness :
    (RopeTextBuffer.mk "ab".toList false).rope.length ≤ 2 ∧
    RopeTextBuffer.removeChar (RopeTextBuffer.mk "ab".toList false) 2 =
      RopeTextBuffer.mk "ab".toList false ∧
    (RopeTextBuffer.removeChar (RopeTextBuffer.mk "ab".toList false) 0).modified =
      true ∧
    deleteChar (initEditor "ab\n".toList none) = initEditor "ab\n".toList none :=
  ⟨by decide, spec_c8.1 _ 2 (by decide), (spec_c8.2.1 _ 0 (by decide)).2,
    spec_c8.2.2 _ rfl rfl⟩

/-- C9: in Insert mode, `handle_input` on Enter with no modifiers falls
through every Insert-mode arm to the wildcard: it returns no action and the
whole editor state — buffer, cursor, mode, offsets — is untouched.  The
`InsertChar('\n')` action exists only in the Normal/Command dispatch table
`handle_key_event`. -/
theorem spec_c9 :
    (∀ (e : CimEditor) (w : Bool), e.mode = EditorMode.insert →
      handleInput e (KeyEvent.mk KeyCode.enter KeyModifiers.none) w =
        some (e, none)) ∧
    handleKeyEvent (KeyEvent.mk KeyCode.enter KeyModifiers.none) =
      some (EditorAction.insertChar '\n') := by
  refine ⟨?_, rfl⟩
  intro e w h
  unfold handleInput
  rw [h]

/-- C9 witness: `spec_c9` at a concrete Insert-mode editor. -/
theorem spec_c9_witness :
    ({ initEditor "x\n".toList none with mode := EditorMode.insert } : CimEditor).mode =
      EditorMode.insert ∧
    handleInput { initEditor "x\n".toList none with mode := EditorMode.insert }
        (KeyEvent.mk KeyCode.enter KeyModifiers.none) true =
      some ({ initEditor "x\n".toList none with mode := EditorMode.insert }, none) :=
  ⟨rfl, spec_c9.1 _ true rfl⟩

/-- Under `so + vh ≤ 65535` the two `as u16` casts in the source's vertical
scroll guards are the identity, and the computation coincides with the
spec's formula. -/
theorem vOffset_eq_spec (y so vh lines : Nat) (h : so + vh ≤ 65535) :
    vOffset y so vh lines = specScrollOffset y so vh lines := by
  unfold vOffset specScrollOffset
  have hm : min 2 (vh / 4) ≤ vh :=
    le_trans (min_le_right _ _) (Nat.div_le_self _ _)
  rw [Nat.mod_eq_of_lt (by omega), Nat.mod_eq_of_lt (by omega)]

/-- Horizontal analogue of `vOffset_eq_spec`: without wrap-around the source
computes exactly the spec's margin algorithm, minus any final clamp. -/
theorem hOffset_eq_spec (x ho vw : Nat) (h : ho + vw ≤ 65535) :
    hOffset x ho vw = specHorizontalOffsetNoClamp x ho vw := by
  unfold hOffset specHorizontalOffsetNoClamp
  have hm : min 5 (vw / 4) ≤ vw :=
    le_trans (min_le_right _ _) (Nat.div_le_self _ _)
  rw [Nat.mod_eq_of_lt (by omega), Nat.mod_eq_of_lt (by omega)]

/-- Claim C4's counterexample state: one line `"hello"`, Insert-style cursor
at its end (column 5), a 4-column viewport, fresh offsets. -/
def hClampCounterState : CimEditor :=
  { initEditor "hello\n".toList none with
    cursorX := 5, viewportWidth := 4, viewportHeight := 20 }

/-- C4 counterexample: the source's horizontal recomputation yields offset 2
here, but the claimed "identical algorithm (including the final clamp)"
yields 1 (the clamp `max(0, 5 - 4)` bites).  So `update_viewport` does not
apply the final clamp horizontally. -/
theorem spec_c4_counterexample :
    (updateViewport hClampCounterState).horizontalOffset = 2 ∧
    specHorizontalOffsetClamped 5 0 4 (currentLineLength hClampCounterState) = 1 := by
  decide

/-- C4 (amended): `update_viewport` recomputes the vertical offset exactly as
the spec states — including the final clamp — and the horizontal offset by
the identical margin algorithm but *without* any final clamp, whenever the
`usize → u16` guard casts cannot wrap; and the spec's concrete scenario
holds: with `viewport_height = 20` (margin 2) and 30 lines, cursor line 25
from offset 0 gives offset 7, and cursor line 1 from offset 7 gives 0. -/
theorem spec_c4_amended (e : CimEditor)
    (h1 : e.scrollOffset + e.viewportHeight ≤ 65535)
    (h2 : e.horizontalOffset + e.viewportWidth ≤ 65535) :
    updateViewport e =
      { e with
        scrollOffset :=
          specScrollOffset e.cursorY e.scrollOffset e.viewportHeight (totalLines e),
        horizontalOffset :=
          specHorizontalOffsetNoClamp e.cursorX e.horizontalOffset e.viewportWidth } ∧
    specScrollOffset 25 0 20 30 = 7 ∧ specScrollOffset 1 7 20 30 = 0 := by
  refine ⟨?_, by decide, by decide⟩
  unfold updateViewport
  rw [vOffset_eq_spec _ _ _ _ h1, hOffset_eq_spec _ _ _ h2]
  rfl

/-- The spec's scroll-margin scenario as a state: 30 lines, cursor on line
25, `viewport_height = 20`. -/
def scrollScenarioState : CimEditor :=
  { initEditor (List.replicate 30 '\n') none with
    cursorY := 25, viewportHeight := 20 }

/-- C4 witness: `spec_c4_amended` applied to the scroll-margin scenario
state. -/
theorem spec_c4_witness :
    (scrollScenarioState.scrollOffset + scrollScenarioState.viewportHeight ≤ 65535 ∧
      scrollScenarioState.horizontalOffset + scrollScenarioState.viewportWidth ≤ 65535) ∧
    (updateViewport scrollScenarioState =
      { scrollScenarioState with
        scrollOffset :=
          specScrollOffset scrollScenarioState.cursorY scrollScenarioState.scrollOffset
            scrollScenarioState.viewportHeight (totalLines scrollScenarioState),
        horizontalOffset :=
          specHorizontalOffsetNoClamp scrollScenarioState.cursorX
            scrollScenarioState.horizontalOffset scrollScenarioState.viewportWidth } ∧
      specScrollOffset 25 0 20 30 = 7 ∧ specScrollOffset 1 7 20 30 = 0) :=
  ⟨⟨by decide, by decide⟩,
    spec_c4_amended scrollScenarioState (by decide) (by decide)⟩

/-- The skip loop never moves left. -/
theorem skipWhileAux_le (p : Char → Bool) (cs : List Char) :
    ∀ fuel i, i ≤ skipWhileAux p cs fuel i := by
  intro fuel
  induction fuel with
  | zero => intro i; exact le_refl i
  | succ fuel ih =>
      intro i
      unfold skipWhileAux
      by_cases hc : i < cs.length ∧ p (cs.getD i ' ') = true
      · rw [if_pos hc]
        exact le_trans (Nat.le_succ i) (ih (i + 1))
      · rw [if_neg hc]

/-- Starting inside the line, the skip loop stays inside it (or at its
end). -/
theorem skipWhileAux_le_length (p : Char → Bool) (cs : List Char) :
    ∀ fuel i, i ≤ cs.length → skipWhileAux p cs fuel i ≤ cs.length := by
  intro fuel
  induction fuel with
  | zero => intro i h; exact h
  | succ fuel ih =>
      intro i h
      unfold skipWhileAux
      by_cases hc : i < cs.length ∧ p (cs.getD i ' ') = true
      · rw [if_pos hc]
        exact ih (i + 1) hc.1
      · rw [if_neg hc]
        exact h

/-- With adequate fuel (which `skipWhileP` always supplies) the loop stops
only at the line end or on a character that falsifies `p`. -/
theorem skipWhileAux_stop (p : Char → Bool) (cs : List Char) :
    ∀ fuel i, cs.length ≤ fuel + i →
      skipWhileAux p cs fuel i < cs.length →
      p (cs.getD (skipWhileAux p cs fuel i) ' ') = false := by
  intro fuel
  induction fuel with
  | zero =>
      intro i hfuel h
      exact absurd h (by simp only [skipWhileAux]; omega)
  | succ fuel ih =>
      intro i hfuel
      unfold skipWhileAux
      by_cases hc : i < cs.length ∧ p (cs.getD i ' ') = true
      · rw [if_pos hc]
        exact ih (i + 1) (by omega)
      · rw [if_neg hc]
        intro h
        rcases Decidable.not_and_iff_or_not.mp hc with hlen | hp
        · omega
        · exact Bool.of_not_eq_true hp

/-- Every index passed over by the skip loop satisfied `p`. -/
theorem skipWhileAux_scan (p : Char → Bool) (cs : List Char) :
    ∀ fuel i j, i ≤ j → j < skipWhileAux p cs fuel i →
      j < cs.length ∧ p (cs.getD j ' ') = true := by
  intro fuel
  induction fuel with
  | zero =>
      intro i j hij hj
      exact absurd hj (by simp only [skipWhileAux]; omega)
  | succ fuel ih =>
      intro i j hij
      unfold skipWhileAux
      by_cases hc : i < cs.length ∧ p (cs.getD i ' ') = true
      · rw [if_pos hc]
        intro hj
        rcases Nat.eq_or_lt_of_le hij with rfl | hlt
        · exact hc
        · exact ih (i + 1) j hlt hj
      · rw [if_neg hc]
        intro hj
        omega

/-- `skipWhileP` never moves left. -/
theorem skipWhileP_le (p : Char → Bool) (cs : List Char) (i : Nat) :
    i ≤ skipWhileP p cs i :=
  skipWhileAux_le p cs (cs.length - i) i

/-- `skipWhileP` stays inside the line. -/
theorem skipWhileP_le_length (p : Char → Bool) (cs : List Char) (i : Nat)
    (h : i ≤ cs.length) : skipWhileP p cs i ≤ cs.length :=
  skipWhileAux_le_length p cs (cs.length - i) i h

/-- `skipWhileP` stops only at the line end or where `p` fails. -/
theorem skipWhileP_stop (p : Char → Bool) (cs : List Char) (i : Nat)
    (h : skipWhileP p cs i < cs.length) :
    p (cs.getD (skipWhileP p cs i) ' ') = false :=
  skipWhileAux_stop p cs (cs.length - i) i (by omega) h

/-- Every index passed over by `skipWhileP` satisfied `p`. -/
theorem skipWhileP_scan (p : Char → Bool) (cs : List Char) (i j : Nat)
    (hij : i ≤ j) (hj : j < skipWhileP p cs i) :
    j < cs.length ∧ p (cs.getD j ' ') = true :=
  skipWhileAux_scan p cs (cs.length - i) i j hij hj

/-- If `p` holds at an in-range start index, the loop advances past it. -/
theorem skipWhileP_advance (p : Char → Bool) (cs : List Char) (i : Nat)
    (h : i < cs.length) (hp : p (cs.getD i ' ') = true) :
    i + 1 ≤ skipWhileP p cs i := by
  unfold skipWhileP
  obtain ⟨fuel, hf⟩ : ∃ fuel, cs.length - i = fuel + 1 :=
    ⟨cs.length - i - 1, by omega⟩
  rw [hf]
  unfold skipWhileAux
  rw [if_pos ⟨h, hp⟩]
  exact skipWhileAux_le p cs fuel (i + 1)

/-- In range, `isWordCharAt` is the word test on the indexed character. -/
theorem isWordCharAt_eq_getD (cs : List Char) (j : Nat) (h : j < cs.length) :
    isWordCharAt cs j = isWordChar (cs.getD j ' ') := by
  simp [isWordCharAt, List.getElem?_eq_getElem h, List.getD]

/-- The line from the spec's word-motion scenario, in an editor (the buffer
carries a trailing newline so that the line is visible to
`move_cursor_word`, whose guard `line_count == 0` skips newline-free
buffers). -/
def wordLineState : CimEditor :=
  initEditor "foo  bar_baz = 1\n".toList none

/-- C5 counterexample: on `"foo  bar_baz = 1"`, forward word-motion from
column 5 lands at column 15 (the `1`), not at column 13 as the claim says:
`=` is not an alphanumeric-or-underscore character, so the skip over
non-word characters passes it by. -/
theorem spec_c5_counterexample :
    (moveCursorWord { wordLineState with cursorX := 5 } 1).cursorX = 15 ∧
    (moveCursorWord { wordLineState with cursorX := 5 } 1).cursorX ≠ 13 := by
  decide

/-- C5 (amended): forward word-motion on the current line lands on the first
character of the next word (a word character whose predecessor is not one)
or at line end, always strictly to the right and never past the line end;
and on `"foo  bar_baz = 1"` forward motion from column 0 lands at column 5,
from column 5 at column 15 (not 13), and backward motion from column 13
lands at column 5. -/
theorem spec_c5_amended :
    (∀ (cs : List Char) (x : Nat), x < cs.length →
      x < forwardWordIndex cs x ∧ forwardWordIndex cs x ≤ cs.length ∧
      (forwardWordIndex cs x < cs.length →
        isWordCharAt cs (forwardWordIndex cs x) = true ∧
        isWordCharAt cs (forwardWordIndex cs x - 1) = false)) ∧
    (moveCursorWord wordLineState 1).cursorX = 5 ∧
    (moveCursorWord { wordLineState with cursorX := 5 } 1).cursorX = 15 ∧
    (moveCursorWord { wordLineState with cursorX := 13 } (-1)).cursorX = 5 := by
  refine ⟨?_, by decide, by decide, by decide⟩
  intro cs x hx
  unfold forwardWordIndex
  by_cases hw : isWordCharAt cs x
  all_goals simp only [hw, if_true, if_false, Bool.false_eq_true]
  · -- the cursor starts on a word character: first skip the current word
    set n1 := skipWhileP isWordChar cs x with hn1
    have hxn1 : x + 1 ≤ n1 := by
      rw [hn1]
      exact skipWhileP_advance _ cs x hx ((isWordCharAt_eq_getD cs x hx).symm.trans hw)
    have hn1len : n1 ≤ cs.length := skipWhileP_le_length _ cs x (le_of_lt hx)
    set r := skipWhileP (fun c => ! isWordChar c) cs n1 with hr
    have hn1r : n1 ≤ r := skipWhileP_le _ cs n1
    have hrlen : r ≤ cs.length := skipWhileP_le_length _ cs n1 hn1len
    refine ⟨by omega, hrlen, ?_⟩
    intro hrlt
    have hword : isWordChar (cs.getD r ' ') = true := by
      have := skipWhileP_stop (fun c => ! isWordChar c) cs n1 (hr ▸ hrlt)
      rw [← hr] at this
      simpa using this
    have hn1r' : n1 < r := by
      rcases Nat.eq_or_lt_of_le hn1r with heq | hlt
      · -- the non-word skip cannot stop immediately: at `n1` the word skip
        -- stopped, so `n1` is line end or a non-word character
        exfalso
        have hstop := skipWhileP_stop isWordChar cs x (hn1 ▸ (heq ▸ hrlt))
        rw [← hn1] at hstop
        rw [← heq] at hword
        rw [hword] at hstop
        exact Bool.noConfusion hstop
      · exact hlt
    have hprev := skipWhileP_scan (fun c => ! isWordChar c) cs n1 (r - 1)
      (by omega) (by rw [← hr]; omega)
    refine ⟨?_, ?_⟩
    · rw [isWordCharAt_eq_getD cs r hrlt]
      exact hword
    · rw [isWordCharAt_eq_getD cs (r - 1) (by omega)]
      have := hprev.2
      simpa using this
  · -- the cursor starts on a non-word character: only the non-word skip runs
    set r := skipWhileP (fun c => ! isWordChar c) cs x with hr
    have hxr : x + 1 ≤ r := by
      rw [hr]
      refine skipWhileP_advance _ cs x hx ?_
      have : isWordChar (cs.getD x ' ') = false := by
        rw [← isWordCharAt_eq_getD cs x hx]
        exact Bool.of_not_eq_true hw
      simp only [this, Bool.not_false]
    have hrlen : r ≤ cs.length := skipWhileP_le_length _ cs x (le_of_lt hx)
    refine ⟨by omega, hrlen, ?_⟩
    intro hrlt
    have hword : isWordChar (cs.getD r ' ') = true := by
      have := skipWhileP_stop (fun c => ! isWordChar c) cs x (hr ▸ hrlt)
      rw [← hr] at this
      simpa using this
    have hprev := skipWhileP_scan (fun c => ! isWordChar c) cs x (r - 1)
      (by omega) (by rw [← hr]; omega)
    refine ⟨?_, ?_⟩
    · rw [isWordCharAt_eq_getD cs r hrlt]
      exact hword
    · rw [isWordCharAt_eq_getD cs (r - 1) (by omega)]
      have := hprev.2
      simpa using this

/-- C5 witness: the universally quantified part of `spec_c5_amended` at the
line `"a b"` and column 0. -/
theorem spec_c5_witness :
    0 < ("a b".toList).length ∧
    (0 < forwardWordIndex "a b".toList 0 ∧
      forwardWordIndex "a b".toList 0 ≤ ("a b".toList).length ∧
      (forwardWordIndex "a b".toList 0 < ("a b".toList).length →
        isWordCharAt "a b".toList (forwardWordIndex "a b".toList 0) = true ∧
        isWordCharAt "a b".toList (forwardWordIndex "a b".toList 0 - 1) = false)) :=
  ⟨by decide, spec_c5_amended.1 "a b".toList 0 (by decide)⟩

/-- `update_viewport` only rewrites the two offsets. -/
theorem updateViewport_buffer (e : CimEditor) :
    (updateViewport e).buffer = e.buffer := rfl

/-- `update_viewport` leaves `text_changed` alone. -/
theorem updateViewport_textChanged (e : CimEditor) :
    (updateViewport e).textChanged = e.textChanged := rfl

/-- The scroll offset `update_viewport` writes, as `vOffset`. -/
theorem updateViewport_scrollOffset (e : CimEditor) :
    (updateViewport e).scrollOffset =
      vOffset e.cursorY e.scrollOffset e.viewportHeight
        (countNewlines e.buffer.rope) := rfl

/-- `update_viewport` leaves the cursor line alone. -/
theorem updateViewport_cursorY (e : CimEditor) :
    (updateViewport e).cursorY = e.cursorY := rfl

/-- `update_viewport` leaves the viewport height alone. -/
theorem updateViewport_viewportHeight (e : CimEditor) :
    (updateViewport e).viewportHeight = e.viewportHeight := rfl

/-- `normalize_cursor` never touches the buffer. -/
theorem normalizeCursor_buffer (e : CimEditor) :
    (normalizeCursor e).buffer = e.buffer := rfl

/-- `normalize_cursor` leaves `text_changed` alone. -/
theorem normalizeCursor_textChanged (e : CimEditor) :
    (normalizeCursor e).textChanged = e.textChanged := rfl

/-- `update_after_edit` never touches the buffer. -/
theorem updateAfterEdit_buffer (e : CimEditor) :
    (updateAfterEdit e).buffer = e.buffer := rfl

/-- `update_after_edit` raises `text_changed`. -/
theorem updateAfterEdit_textChanged (e : CimEditor) :
    (updateAfterEdit e).textChanged = true := rfl

/-- An editor that just inserted `'x'` into `"hi\n"` in Insert mode with a
file path present: the state on which claim C6 tests `save`. -/
def savedAfterEditState : CimEditor :=
  CimEditor.insertChar
    { initEditor "hi\n".toList (some "f") with mode := EditorMode.insert } 'x'

/-- C6 counterexample: after a mutating insert the buffer's `modified` flag
is set, and a *successful* `save` leaves it set — `CimEditor::save` clears
only the editor's `text_changed` flag (`RopeTextBuffer::modified`, the flag
every mutating buffer call raises and the UI displays, is never cleared by
save). -/
theorem spec_c6_counterexample :
    savedAfterEditState.buffer.modified = true ∧
    (save savedAfterEditState true).2 = true ∧
    (save savedAfterEditState true).1.buffer.modified = true := by
  decide

/-- C6 (amended): every mutating buffer call (`insert_char`, `remove_char`
of an existing character) sets the buffer's `modified` flag; the editor's
insert/delete splices set both that flag and the editor's `text_changed`
flag; a successful `save` with a file path clears only `text_changed` —
never the buffer's `modified` flag — and a failed save changes nothing. -/
theorem spec_c6_amended :
    (∀ (b : RopeTextBuffer) (pos : Nat) (c : Char),
      (b.insertChar pos c).modified = true) ∧
    (∀ (b : RopeTextBuffer) (pos : Nat), pos < b.rope.length →
      (b.removeChar pos).modified = true) ∧
    (∀ (e : CimEditor) (c : Char),
      (e.insertChar c).buffer.modified = true ∧
      (e.insertChar c).textChanged = true) ∧
    (∀ e : CimEditor, 0 < e.cursorX ∨ 0 < e.cursorY →
      (deleteChar e).buffer.modified = true ∧
      (deleteChar e).textChanged = true) ∧
    (∀ (e : CimEditor) (ok : Bool),
      ((save e ok).1).buffer.modified = e.buffer.modified) ∧
    (∀ (e : CimEditor) (p : String), e.filePath = some p →
      (save e true).1.textChanged = false ∧ (save e true).2 = true) ∧
    (∀ (e : CimEditor) (p : String), e.filePath = some p →
      save e false = (e, false)) := by
  refine ⟨?_, ?_, ?_, ?_, ?_, ?_, ?_⟩
  · intro b pos c; rfl
  · intro b pos h
    simp [RopeTextBuffer.removeChar, h]
  · intro e c
    by_cases hc : c = '\n' <;>
      simp [CimEditor.insertChar, hc, updateAfterEdit_buffer,
        updateAfterEdit_textChanged, RopeTextBuffer.insertChar]
  · intro e h
    by_cases hx : 0 < e.cursorX
    · simp [deleteChar, hx, updateAfterEdit_buffer, updateAfterEdit_textChanged]
    · have hy : 0 < e.cursorY := by omega
      simp [deleteChar, hx, hy, updateAfterEdit_buffer, updateAfterEdit_textChanged]
  · intro e ok
    cases hfp : e.filePath with
    | none => simp [save, hfp]
    | some p => cases ok <;> simp [save, hfp]
  · intro e p h
    simp [save, h]
  · intro e p h
    simp [save, h]

/-- A one-line editor with the cursor at column 1, for exercising the
backspace branch of claim C6's witness. -/
def delWitnessState : CimEditor :=
  { initEditor "ab\n".toList none with cursorX := 1 }

/-- An unmodified editor with a file path, for exercising `save` in claim
C6's witness. -/
def saveWitnessState : CimEditor :=
  initEditor "hi\n".toList (some "f")

/-- C6 witness: the hypothesis-bearing parts of `spec_c6_amended` at
concrete inputs. -/
theorem spec_c6_witness :
    (RopeTextBuffer.removeChar (RopeTextBuffer.mk "ab".toList false) 0).modified =
      true ∧
    ((deleteChar delWitnessState).buffer.modified = true ∧
      (deleteChar delWitnessState).textChanged = true) ∧
    ((save saveWitnessState true).1.textChanged = false ∧
      (save saveWitnessState true).2 = true) ∧
    save saveWitnessState false = (saveWitnessState, false) :=
  ⟨spec_c6_amended.2.1 _ 0 (by decide),
    spec_c6_amended.2.2.2.1 delWitnessState (Or.inl (by decide)),
    spec_c6_amended.2.2.2.2.2.1 saveWitnessState "f" rfl,
    spec_c6_amended.2.2.2.2.2.2 saveWitnessState "f" rfl⟩

/-- `update_viewport`'s vertical recomputation is idempotent whenever the
`usize → u16` guard casts cannot wrap (cursor, offset and line measure all
fit in `u16` together with the viewport height). -/
theorem vOffset_idem (y so vh lines : Nat) (hy : y + vh ≤ 65535)
    (hso : so + vh ≤ 65535) (hl : lines ≤ 65535) :
    vOffset y (vOffset y so vh lines) vh lines = vOffset y so vh lines := by
  unfold vOffset
  set m := min 2 (vh / 4) with hm
  have hm2 : m ≤ 2 := min_le_left _ _
  have h4m : 4 * m ≤ vh := by
    have h1 : m ≤ vh / 4 := min_le_right _ _
    have h2 : vh / 4 * 4 ≤ vh := Nat.div_mul_le_self vh 4
    omega
  by_cases hA : y < (so + m) % 65536
  · simp only [if_pos hA]
    rcases Nat.le_total (y - m) (lines - vh) with h1 | h1
    · rw [Nat.min_eq_left h1]
      by_cases hB : y < (y - m + m) % 65536
      · simp only [if_pos hB]
        rw [Nat.min_eq_left h1]
      · simp only [if_neg hB]
        by_cases hC : (y - m + vh - m) % 65536 ≤ y
        · simp only [if_pos hC]
          rcases Nat.le_total (y + m - vh) (lines - vh) with h2 | h2
          · rw [Nat.min_eq_left h2]; omega
          · rw [Nat.min_eq_right h2]; omega
        · simp only [if_neg hC]
          rw [Nat.min_eq_left h1]
    · rw [Nat.min_eq_right h1]
      by_cases hB : y < (lines - vh + m) % 65536
      · simp only [if_pos hB]
        rcases Nat.le_total (y - m) (lines - vh) with h2 | h2
        · rw [Nat.min_eq_left h2]; omega
        · rw [Nat.min_eq_right h2]
      · simp only [if_neg hB]
        by_cases hC : (lines - vh + vh - m) % 65536 ≤ y
        · simp only [if_pos hC]
          rcases Nat.le_total (y + m - vh) (lines - vh) with h2 | h2
          · rw [Nat.min_eq_left h2]; omega
          · rw [Nat.min_eq_right h2]
        · simp only [if_neg hC]
          exact Nat.min_self _
  · simp only [if_neg hA]
    by_cases hA2 : (so + vh - m) % 65536 ≤ y
    · simp only [if_pos hA2]
      rcases Nat.le_total (y + m - vh) (lines - vh) with h1 | h1
      · rw [Nat.min_eq_left h1]
        by_cases hB : y < (y + m - vh + m) % 65536
        · simp only [if_pos hB]
          rcases Nat.le_total (y - m) (lines - vh) with h2 | h2
          · rw [Nat.min_eq_left h2]; omega
          · rw [Nat.min_eq_right h2]; omega
        · simp only [if_neg hB]
          by_cases hC : (y + m - vh + vh - m) % 65536 ≤ y
          · simp only [if_pos hC]
            rw [Nat.min_eq_left h1]
          · simp only [if_neg hC]
            rw [Nat.min_eq_left h1]
      · rw [Nat.min_eq_right h1]
        by_cases hB : y < (lines - vh + m) % 65536
        · simp only [if_pos hB]
          rcases Nat.le_total (y - m) (lines - vh) with h2 | h2
          · rw [Nat.min_eq_left h2]; omega
          · rw [Nat.min_eq_right h2]
        · simp only [if_neg hB]
          by_cases hC : (lines - vh + vh - m) % 65536 ≤ y
          · simp only [if_pos hC]
            rcases Nat.le_total (y + m - vh) (lines - vh) with h2 | h2
            · rw [Nat.min_eq_left h2]; omega
            · rw [Nat.min_eq_right h2]
          · simp only [if_neg hC]
            exact Nat.min_self _
    · simp only [if_neg hA2]
      rcases Nat.le_total so (lines - vh) with h1 | h1
      · rw [Nat.min_eq_left h1]
        by_cases hB : y < (so + m) % 65536
        · exact absurd hB hA
        · simp only [if_neg hB]
          by_cases hC : (so + vh - m) % 65536 ≤ y
          · exact absurd hC hA2
          · simp only [if_neg hC]
            rw [Nat.min_eq_left h1]
      · rw [Nat.min_eq_right h1]
        by_cases hB : y < (lines - vh + m) % 65536
        · simp only [if_pos hB]
          rcases Nat.le_total (y - m) (lines - vh) with h2 | h2
          · rw [Nat.min_eq_left h2]; omega
          · rw [Nat.min_eq_right h2]
        · simp only [if_neg hB]
          by_cases hC : (lines - vh + vh - m) % 65536 ≤ y
          · simp only [if_pos hC]
            rcases Nat.le_total (y + m - vh) (lines - vh) with h2 | h2
            · rw [Nat.min_eq_left h2]; omega
            · rw [Nat.min_eq_right h2]
          · simp only [if_neg hC]
            exact Nat.min_self _

/-- `update_viewport`'s horizontal recomputation is idempotent whenever the
`usize → u16` guard casts cannot wrap. -/
theorem hOffset_idem (x ho vw : Nat) (hx : x + vw ≤ 65535)
    (hho : ho + vw ≤ 65535) :
    hOffset x (hOffset x ho vw) vw = hOffset x ho vw := by
  have hmle : min 5 (vw / 4) ≤ vw / 4 := min_le_right _ _
  have hmle2 : min 5 (vw / 4) ≤ 5 := min_le_left _ _
  unfold hOffset
  set m := min 5 (vw / 4) with hm
  have h4m : 4 * m ≤ vw := by
    have h2 : vw / 4 * 4 ≤ vw := Nat.div_mul_le_self vw 4
    omega
  split_ifs <;> omega

/-- Clamping twice against the same bound clamps once. -/
theorem min_min_self (a b : Nat) : min (min a b) b = min a b := by
  rw [min_assoc, min_self]

/-- The normalized column never exceeds the current column. -/
theorem normCursorPos_fst_le (e : CimEditor) : (normCursorPos e).1 ≤ e.cursorX := by
  simp only [normCursorPos]
  split_ifs <;> first | exact Nat.zero_le _ | exact min_le_left _ _

/-- The normalized line never exceeds the current line. -/
theorem normCursorPos_snd_le (e : CimEditor) : (normCursorPos e).2 ≤ e.cursorY := by
  simp only [normCursorPos]
  split_ifs <;> first | exact Nat.zero_le _ | exact min_le_left _ _

/-- The cursor clamp of `normalize_cursor` is a fixpoint of itself: applied
to the already-clamped cursor it returns the same pair. -/
theorem normCursorPos_idem (e : CimEditor) :
    normCursorPos
        { e with cursorX := (normCursorPos e).1, cursorY := (normCursorPos e).2 } =
      normCursorPos e := by
  by_cases hlc : countNewlines e.buffer.rope = 0
  · simp [normCursorPos, hlc]
  · have hpos : 0 < countNewlines e.buffer.rope := Nat.pos_of_ne_zero hlc
    simp only [normCursorPos, hlc, if_false, min_min_self, ite_false, ite_true]
    simp [hpos, min_min_self]
    split_ifs <;> simp [Nat.zero_min, min_min_self]

/-- `update_viewport` is idempotent on states whose offsets, cursor and line
measure cannot make the `usize → u16` guard casts wrap. -/
theorem updateViewport_idem (e : CimEditor)
    (h1 : e.cursorY + e.viewportHeight ≤ 65535)
    (h2 : e.scrollOffset + e.viewportHeight ≤ 65535)
    (h3 : countNewlines e.buffer.rope ≤ 65535)
    (h4 : e.cursorX + e.viewportWidth ≤ 65535)
    (h5 : e.horizontalOffset + e.viewportWidth ≤ 65535) :
    updateViewport (updateViewport e) = updateViewport e := by
  have hv := vOffset_idem e.cursorY e.scrollOffset e.viewportHeight
    (countNewlines e.buffer.rope) h1 h2 h3
  have hh := hOffset_idem e.cursorX e.horizontalOffset e.viewportWidth h4 h5
  simp [updateViewport, hv, hh]

/-- `normalize_cursor` is idempotent on the same no-wrap states: the second
call recomputes the same cursor (by `normCursorPos_idem`) and the same
offsets (by `updateViewport_idem`). -/
theorem normalizeCursor_idem (e : CimEditor)
    (h1 : e.cursorY + e.viewportHeight ≤ 65535)
    (h2 : e.scrollOffset + e.viewportHeight ≤ 65535)
    (h3 : countNewlines e.buffer.rope ≤ 65535)
    (h4 : e.cursorX + e.viewportWidth ≤ 65535)
    (h5 : e.horizontalOffset + e.viewportWidth ≤ 65535) :
    normalizeCursor (normalizeCursor e) = normalizeCursor e := by
  have hx := normCursorPos_fst_le e
  have hy' := normCursorPos_snd_le e
  show normalizeCursor (updateViewport
    { e with cursorX := (normCursorPos e).1, cursorY := (normCursorPos e).2 }) = _
  unfold normalizeCursor
  have hnp : normCursorPos (updateViewport
      { e with cursorX := (normCursorPos e).1, cursorY := (normCursorPos e).2 }) =
      normCursorPos e := normCursorPos_idem e
  rw [hnp]
  show updateViewport (updateViewport
    { e with cursorX := (normCursorPos e).1, cursorY := (normCursorPos e).2 }) = _
  exact updateViewport_idem _
    (by show (normCursorPos e).2 + e.viewportHeight ≤ 65535; omega) h2 h3
    (by show (normCursorPos e).1 + e.viewportWidth ≤ 65535; omega) h5

/-- An 80000-line buffer (so the scroll clamp does not interfere), the
cursor on line 65530 — a valid `u16` cursor line well inside the buffer —
scroll offset 65531 (within the invariant bound `line_count − vh = 79990`)
and `viewport_height = 10`.  Here `scroll_offset + vh − margin` crosses
65536 between the first and second recomputation. -/
def viewportWrapState : CimEditor :=
  { initEditor (List.replicate 80000 '\n') none with
    cursorY := 65530, scrollOffset := 65531, viewportHeight := 10 }

/-- C7 counterexample: `update_viewport` is not idempotent.  On
`viewportWrapState` the first call scrolls to 65528 (margin branch), but the
second call sees `(65528 + 10 − 2) as u16 = 0 ≤ y` — the cast wraps — takes
the other margin branch and moves the offset again, to 65522. -/
theorem spec_c7_counterexample :
    (updateViewport viewportWrapState).scrollOffset = 65528 ∧
    (updateViewport (updateViewport viewportWrapState)).scrollOffset = 65522 := by
  constructor
  · rw [updateViewport_scrollOffset]
    rw [show viewportWrapState.cursorY = 65530 from rfl,
      show viewportWrapState.scrollOffset = 65531 from rfl,
      show viewportWrapState.viewportHeight = 10 from rfl,
      show viewportWrapState.buffer.rope = List.replicate 80000 '\n' from rfl,
      countNewlines_replicate 80000]
    decide
  · rw [updateViewport_scrollOffset, updateViewport_cursorY, updateViewport_buffer,
      updateViewport_viewportHeight, updateViewport_scrollOffset]
    rw [show viewportWrapState.cursorY = 65530 from rfl,
      show viewportWrapState.scrollOffset = 65531 from rfl,
      show viewportWrapState.viewportHeight = 10 from rfl,
      show viewportWrapState.buffer.rope = List.replicate 80000 '\n' from rfl,
      countNewlines_replicate 80000]
    decide

/-- C7 (amended): cursor clamping and viewport recomputation are idempotent
on every state whose cursor coordinates, offsets and line measure are small
enough that the `usize → u16` casts in `update_viewport`'s guards cannot
wrap — concretely, `cursor + viewport` and `offset + viewport` fit in a
`u16` on each axis and the line measure fits in a `u16`. -/
theorem spec_c7_amended (e : CimEditor)
    (h1 : e.cursorY + e.viewportHeight ≤ 65535)
    (h2 : e.scrollOffset + e.viewportHeight ≤ 65535)
    (h3 : totalLines e ≤ 65535)
    (h4 : e.cursorX + e.viewportWidth ≤ 65535)
    (h5 : e.horizontalOffset + e.viewportWidth ≤ 65535) :
    normalizeCursor (normalizeCursor e) = normalizeCursor e ∧
    updateViewport (updateViewport e) = updateViewport e :=
  ⟨normalizeCursor_idem e h1 h2 h3 h4 h5, updateViewport_idem e h1 h2 h3 h4 h5⟩

/-- A small in-range state for claim C7's witness. -/
def idemWitnessState : CimEditor :=
  { initEditor "ab\ncd\n".toList none with
    cursorX := 1, cursorY := 1, viewportHeight := 5, viewportWidth := 6 }

/-- C7 witness: `spec_c7_amended` at a concrete in-range state. -/
theorem spec_c7_witness :
    (idemWitnessState.cursorY + idemWitnessState.viewportHeight ≤ 65535 ∧
      idemWitnessState.scrollOffset + idemWitnessState.viewportHeight ≤ 65535 ∧
      totalLines idemWitnessState ≤ 65535 ∧
      idemWitnessState.cursorX + idemWitnessState.viewportWidth ≤ 65535 ∧
      idemWitnessState.horizontalOffset + idemWitnessState.viewportWidth ≤ 65535) ∧
    (normalizeCursor (normalizeCursor idemWitnessState) =
        normalizeCursor idemWitnessState ∧
      updateViewport (updateViewport idemWitnessState) =
        updateViewport idemWitnessState) :=
  ⟨⟨by decide, by decide, by decide, by decide, by decide⟩,
    spec_c7_amended idemWitnessState (by decide) (by decide) (by decide)
      (by decide) (by decide)⟩
